import Mathlib

/-!
Verification development for the county-health analytics pipeline.

The source is TypeScript; we give a shallow embedding in Lean:

* JS primitive values occurring in the pipeline (numbers, strings, `null`)
  are modelled by `Value`; an absent object property (`undefined`) is
  modelled by an `Option Value` being `none`.
* JS numbers are modelled by `ℚ`.  The pipeline's arithmetic is +, -, *, /
  and comparisons on finite values, which ℚ captures exactly; `NaN` is
  modelled by `Option` results where the code can produce it.
* JS number→string conversion (`String(n)`, implicit in `+` on mixed
  operands and object keys) has no exact rational counterpart, so it is an
  explicit parameter `fmt : ℚ → String` of every definition that needs it.
* A JS object row is an association list `Rec` (key order = insertion
  order, as in JS); property update keeps the key's position, property
  creation appends, as JS objects do.
-/

/-- A JS primitive value as it occurs in the data pipeline. -/
inductive Value where
  | num (q : ℚ)
  | str (s : String)
  | null
deriving DecidableEq, Repr

/-- A data row: JS object as insertion-ordered association list. -/
abbrev Rec := List (String × Value)

/-- JS truthiness for the values in our model: `0`, `""` and `null` are
falsy, all other numbers and strings truthy. -/
def Value.truthy : Value → Bool
  | .num q => q ≠ 0
  | .str s => s ≠ ""
  | .null => false

/-- Truthiness of a possibly-absent property (`undefined` is falsy). -/
def truthyO : Option Value → Bool
  | none => false
  | some v => v.truthy

/-- JS `a || b` on possibly-absent values. -/
def jsOr (a b : Option Value) : Option Value :=
  if truthyO a then a else b

/-- Property read `r[k]`: first binding wins (rows built by `aset` have
no duplicate keys). -/
def jsGet (r : List (String × α)) (k : String) : Option α :=
  r.lookup k

/-- Property write `r[k] = v`: updates in place if the key exists,
otherwise appends — JS object key-order semantics. -/
def aset (r : List (String × α)) (k : String) (v : α) : List (String × α) :=
  if (r.lookup k).isSome then
    r.map (fun p => if p.1 = k then (k, v) else p)
  else
    r ++ [(k, v)]

/-- Numeric value of a decimal digit string (fold as the parser scans). -/
def digitsVal (cs : List Char) : ℕ :=
  cs.foldl (fun n c => 10 * n + (c.toNat - 48)) 0

/-- Parse an unsigned decimal mantissa (`123`, `12.5`, `.5`, `5.`) at the
head of `cs`; returns the value and the unconsumed rest.  Fails when no
digit is present. -/
def parseUnsigned (cs : List Char) : Option (ℚ × List Char) :=
  let intPart := cs.takeWhile Char.isDigit
  let rest := cs.dropWhile Char.isDigit
  match rest with
  | '.' :: rest2 =>
      let frac := rest2.takeWhile Char.isDigit
      let rest3 := rest2.dropWhile Char.isDigit
      if intPart = [] ∧ frac = [] then none
      else some ((digitsVal intPart : ℚ) + (digitsVal frac : ℚ) / (10 ^ frac.length), rest3)
  | _ => if intPart = [] then none else some ((digitsVal intPart : ℚ), rest)

/-- Consume an optional exponent part (`e5`, `E-3`); when `e`/`E` is not
followed by at least one digit it is left unconsumed, as JS parsing does. -/
def applyExp (q : ℚ) (cs : List Char) : ℚ × List Char :=
  match cs with
  | c :: rest =>
      if c = 'e' ∨ c = 'E' then
        let (sgn, rest2) : ℤ × List Char :=
          match rest with
          | '+' :: r => (1, r)
          | '-' :: r => (-1, r)
          | r => (1, r)
        let ds := rest2.takeWhile Char.isDigit
        if ds = [] then (q, cs)
        else (q * (10 : ℚ) ^ (sgn * (digitsVal ds : ℤ)), rest2.dropWhile Char.isDigit)
      else (q, cs)
  | [] => (q, cs)

/-- Parse an optionally signed decimal number with optional exponent at the
head of `cs`. -/
def parseSigned (cs : List Char) : Option (ℚ × List Char) :=
  let (sgn, rest) : ℚ × List Char :=
    match cs with
    | '+' :: r => (1, r)
    | '-' :: r => (-1, r)
    | r => (1, r)
  match parseUnsigned rest with
  | none => none
  | some (q, rest2) =>
      let (q2, rest3) := applyExp q rest2
      some (sgn * q2, rest3)

/-- JS `Number.parseFloat(s)`: skip leading whitespace, read the longest
numeric prefix, ignore trailing junk; `none` models `NaN`.  (The model
covers decimal literals; `Infinity` and hex literals do not occur in the
pipeline's data.) -/
def jsParseFloat (s : String) : Option ℚ :=
  (parseSigned (s.toList.dropWhile Char.isWhitespace)).map Prod.fst

/-- JS whitespace trimming (both ends), on the character list so that it
evaluates by kernel reduction. -/
def jsTrim (s : String) : String :=
  String.mk (((s.toList.dropWhile Char.isWhitespace).reverse.dropWhile
    Char.isWhitespace).reverse)

/-- JS `s.substring(0, n)`. -/
def strTake (s : String) (n : ℕ) : String :=
  String.mk (s.toList.take n)

/-- JS `Number(s)` on a string: trim, empty string is `0`, otherwise the
whole trimmed string must be a numeric literal; `none` models `NaN`. -/
def jsNumberFull (s : String) : Option ℚ :=
  let t := jsTrim s
  if t = "" then some 0
  else
    match parseSigned t.toList with
    | some (q, []) => some q
    | _ => none

/-- JS `Number(v)` coercion of a present value; `none` models `NaN`. -/
def jsNumberOfValue : Value → Option ℚ
  | .num q => some q
  | .str s => jsNumberFull s
  | .null => some 0

/-- JS `String(v)` conversion, with the number formatter abstracted as
`fmt`. -/
def jsToString (fmt : ℚ → String) : Value → String
  | .num q => fmt q
  | .str s => s
  | .null => "null"

/-- JS `s.padStart(n, c)`. -/
def padStart (s : String) (n : ℕ) (c : Char) : String :=
  if n ≤ s.length then s
  else String.mk (List.replicate (n - s.length) c ++ s.toList)

/-! ## `parseCSV` (data-loader) -/

/-- One CSV cell as stored by `parseCSV`: source takes
`values[index]?.trim() || ""` and converts it to a number only when the
whole cell parses (`!isNaN(Number(value)) && value !== ""`). -/
def cellValue (ov : Option String) : Value :=
  let value := (ov.map jsTrim).getD ""
  if (jsNumberFull value).isSome ∧ value ≠ "" then .num ((jsNumberFull value).getD 0)
  else .str value

/-- One CSV data line: `headers.forEach((header, index) => ...)`. -/
def parseCSVRow (headers : List String) (values : List String) : Rec :=
  headers.enum.foldl (fun r hi => aset r hi.2 (cellValue (values.get? hi.1))) []

/-- Source `parseCSV`: split into lines, first line gives trimmed headers, blank
lines are skipped, each remaining line becomes a row object. -/
def parseCSV (csvText : String) : List Rec :=
  let rows := csvText.splitOn "\n"
  let headers := ((rows.headD "").splitOn ",").map jsTrim
  (rows.drop 1).filterMap (fun row =>
    if jsTrim row = "" then none
    else some (parseCSVRow headers (row.splitOn ",")))

/-! ## Region mapper (identical table in the data loader and in
`lib/data-processing`) -/

/-- Source `getRegionFromState`: fixed 50-state (+DC) lookup, `"Unknown"`
otherwise. -/
def getRegionFromState (stateAbbr : String) : String :=
  if stateAbbr ∈ ["CT", "ME", "MA", "NH", "RI", "VT", "NJ", "NY", "PA"] then "Northeast"
  else if stateAbbr ∈ ["IL", "IN", "MI", "OH", "WI", "IA", "KS", "MN", "MO", "NE", "ND", "SD"] then "Midwest"
  else if stateAbbr ∈ ["DE", "FL", "GA", "MD", "NC", "SC", "VA", "WV", "AL", "KY", "MS", "TN",
                       "AR", "LA", "OK", "TX", "DC"] then "South"
  else if stateAbbr ∈ ["AZ", "CO", "ID", "MT", "NV", "NM", "UT", "WY", "AK", "CA", "HI", "OR",
                       "WA"] then "West"
  else "Unknown"

/-! ## Data-loader `processData`: numeric coercion, filtering, field
standardization -/

/-- Aggregation level. -/
inductive AggLevel where
  | county
  | state
  | region
deriving DecidableEq, Repr

/-- The numeric-coercion pass of `processData` on one property:
non-identifier, non-`null`, non-empty values go through
`Number.parseFloat`; a string is replaced by the parsed number whenever a
numeric *prefix* parses.  (`parseFloat` applied to a number round-trips, so
numbers are unchanged.) -/
def coerceVal (k : String) (v : Value) : Value :=
  if k = "FIPS" ∨ k = "Name" ∨ k = "State Abbreviation" then v
  else
    match v with
    | .null => .null
    | .num q => .num q
    | .str s =>
        if s = "" then .str s
        else
          match jsParseFloat s with
          | some q => .num q
          | none => .str s

/-- The `Object.keys(newRow).forEach(...)` pass of `processData`. -/
def coerceRow (r : Rec) : Rec :=
  r.map (fun p => (p.1, coerceVal p.1 p.2))

/-- The row filter of the data-loader `processData`. -/
def filterRow (level : AggLevel) (row : Rec) : Bool :=
  match level with
  | .county =>
      truthyO (jsGet row "FIPS") &&
      truthyO (jsOr (jsOr (jsGet row "Name") (jsGet row "County")) (jsGet row "county")) &&
      truthyO (jsOr (jsOr (jsGet row "State Abbreviation") (jsGet row "State")) (jsGet row "state"))
  | _ =>
      truthyO (jsOr (jsOr (jsGet row "State Abbreviation") (jsGet row "State")) (jsGet row "state"))

/-- Field standardization, FIPS stage: alias fill from `fips` /
`FIPS Code` when FIPS is falsy, then `String(...).padStart(5, "0")` on a
truthy FIPS. -/
def stdRowFips (fmt : ℚ → String) (row : Rec) : Rec :=
  let r1 :=
    if ¬ truthyO (jsGet row "FIPS") ∧
        truthyO (jsOr (jsGet row "fips") (jsGet row "FIPS Code")) then
      aset row "FIPS" ((jsOr (jsGet row "fips") (jsGet row "FIPS Code")).getD .null)
    else row
  match jsGet r1 "FIPS" with
  | some v => if v.truthy then aset r1 "FIPS" (.str (padStart (jsToString fmt v) 5 '0')) else r1
  | none => r1

/-- Field standardization, Name stage: alias fill from `County` / `county`
/ `NAME` when Name is falsy. -/
def stdRowName (r : Rec) : Rec :=
  if ¬ truthyO (jsGet r "Name") ∧
      truthyO (jsOr (jsOr (jsGet r "County") (jsGet r "county")) (jsGet r "NAME")) then
    aset r "Name" ((jsOr (jsOr (jsGet r "County") (jsGet r "county")) (jsGet r "NAME")).getD .null)
  else r

/-- Field standardization, State Abbreviation stage: alias fill from
`State` / `state` when State Abbreviation is falsy. -/
def stdRowSA (r : Rec) : Rec :=
  if ¬ truthyO (jsGet r "State Abbreviation") ∧
      truthyO (jsOr (jsGet r "State") (jsGet r "state")) then
    aset r "State Abbreviation" ((jsOr (jsGet r "State") (jsGet r "state")).getD .null)
  else r

/-- Field standardization of one row: FIPS alias fill, FIPS padding to 5
with leading zeros, Name alias fill, State Abbreviation alias fill — in
source order. -/
def stdRow (fmt : ℚ → String) (row : Rec) : Rec :=
  stdRowSA (stdRowName (stdRowFips fmt row))

/-- The `standardizedData` of the data-loader `processData`, applied (as in the
source) to the already-coerced and filtered rows. -/
def loaderStandardized (fmt : ℚ → String) (level : AggLevel) (rawData : List Rec) : List Rec :=
  ((rawData.map coerceRow).filter (filterRow level)).map (stdRow fmt)

/-! ## `aggregateByField` (data loader) -/

/-- Insert a row into its group, preserving first-seen group order
(`Object.entries` iterates string keys in insertion order; the group keys
of this pipeline — state abbreviations, region names — are not array
indices). -/
def groupInsert (gs : List (String × List Rec)) (k : String) (r : Rec) :
    List (String × List Rec) :=
  match gs with
  | [] => [(k, [r])]
  | (k', rs) :: t => if k' = k then (k', rs ++ [r]) :: t else (k', rs) :: groupInsert t k r

/-- Grouping pass of `aggregateByField`: rows with a falsy group key are
dropped; object keys are strings, so the key value is string-converted. -/
def groupByField (fmt : ℚ → String) (data : List Rec) (field : String) :
    List (String × List Rec) :=
  data.foldl (fun gs row =>
    match jsGet row field with
    | none => gs
    | some v => if v.truthy then groupInsert gs (jsToString fmt v) row else gs) []

/-- The values a group contributes for one metric:
`rows.map(r => r[metric]).filter(v => v !== undefined && v !== null &&
!isNaN(Number(v))).map(v => Number(v))`. -/
def collectVals (rows : List Rec) (metric : String) : List ℚ :=
  rows.filterMap (fun r =>
    match jsGet r metric with
    | none => none
    | some Value.null => none
    | some v => jsNumberOfValue v)

/-- Per-metric aggregation fold: set the metric to the mean of the
collected values when at least one exists, otherwise leave it unset. -/
def aggMetrics (rows : List Rec) (metrics : List String) (acc : Rec) : Rec :=
  metrics.foldl (fun acc metric =>
    let values := collectVals rows metric
    if values.length > 0 then aset acc metric (.num (values.sum / values.length))
    else acc) acc

/-- The state-level special case of `aggregateByField`: a representative
2-character FIPS from the first row with a truthy FIPS, and the group key
as Name when some row has a truthy Name. -/
def stateExtras (fmt : ℚ → String) (key : String) (rows : List Rec) (r : Rec) : Rec :=
  let r1 :=
    match (rows.find? (fun row => truthyO (jsGet row "FIPS"))).bind
        (fun row => jsGet row "FIPS") with
    | some v =>
        if v.truthy then
          aset r "FIPS" (.str (padStart (strTake (jsToString fmt v) 2) 2 '0'))
        else r
    | none => r
  match (rows.find? (fun row => truthyO (jsGet row "Name"))).bind
      (fun row => jsGet row "Name") with
  | some v => if v.truthy then aset r1 "Name" (.str key) else r1
  | none => r1

/-- The aggregated record of one group: `{[field]: key}`, metric means,
`<field>Count`, and — for state-level aggregation — the `stateExtras`
writes. -/
def aggRec (fmt : ℚ → String) (field : String) (metrics : List String)
    (key : String) (rows : List Rec) : Rec :=
  let withCount :=
    aset (aggMetrics rows metrics [(field, Value.str key)]) (field ++ "Count")
      (.num rows.length)
  if field = "State Abbreviation" then stateExtras fmt key rows withCount
  else withCount

/-- Source `aggregateByField` of the data loader. -/
def aggregateByField (fmt : ℚ → String) (data : List Rec) (field : String)
    (metrics : List String) : List Rec :=
  (groupByField fmt data field).map (fun g => aggRec fmt field metrics g.1 g.2)

/-! ## Health burden index -/

/-- The fixed metric allow-list (`importantMetrics`) of the data loader. -/
def importantMetrics : List String :=
  ["Adult Obesity raw value", "Food Insecurity raw value", "Physical Inactivity raw value",
   "Poor or Fair Health raw value", "Median Household Income raw value",
   "Children in Poverty raw value", "Life Expectancy raw value", "Adult Smoking raw value",
   "Uninsured raw value", "Mental Health Providers raw value", "Unemployment raw value",
   "Income Inequality raw value", "Air Pollution - Particulate Matter raw value",
   "Severe Housing Problems raw value", "Insufficient Sleep raw value",
   "Broadband Access raw value", "Premature Death raw value", "Low Birthweight raw value",
   "Access to Exercise Opportunities raw value", "Primary Care Physicians raw value",
   "Food Environment Index raw value", "Dentists raw value",
   "Preventable Hospital Stays raw value", "Mammography Screening raw value",
   "Flu Vaccinations raw value", "High School Completion raw value",
   "Children in Single-Parent Households raw value", "Injury Deaths raw value",
   "Driving Alone to Work raw value", "Long Commute - Driving Alone raw value",
   "Voter Turnout raw value"]

/-- The four fixed health metrics of the burden index. -/
def healthMetrics : List String :=
  ["Adult Obesity raw value", "Food Insecurity raw value", "Physical Inactivity raw value",
   "Poor or Fair Health raw value"]

/-- The JS accumulator `sum`: starts as the number `0`, but `+=` on a
string operand switches it to string concatenation. -/
inductive JSVal where
  | num (q : ℚ)
  | str (s : String)
deriving DecidableEq, Repr

/-- JS `sum + v` for the burden accumulator (`number + string` and
`string + anything` concatenate; `x + null` adds `0` to a number and
appends `"null"` to a string). -/
def jsAdd (fmt : ℚ → String) : JSVal → Value → JSVal
  | .num a, .num b => .num (a + b)
  | .num a, .str s => .str (fmt a ++ s)
  | .num a, .null => .num a
  | .str t, .num b => .str (t ++ fmt b)
  | .str t, .str s => .str (t ++ s)
  | .str t, .null => .str (t ++ "null")

/-- JS `sum / count` for the burden result; a string dividend is coerced
via `Number`; `none` models `NaN`. -/
def jsDivNat (sum : JSVal) (c : ℕ) : Option ℚ :=
  match sum with
  | .num a => some (a / c)
  | .str s => (jsNumberFull s).map (fun q => q / c)

/-- The entity id used as burden-index key, by aggregation level. -/
def idOf (level : AggLevel) (e : Rec) : Option Value :=
  match level with
  | .county => jsGet e "FIPS"
  | .state => jsGet e "State Abbreviation"
  | .region => jsGet e "Region"

/-- One step of the per-entity sum/count loop: a metric contributes when
it is present and `!isNaN(entity[metric])`; an in-`[0,1]` value is added
as-is (`sum += normalizedValue`), any other value contributes the
placeholder `0.5`. -/
def burdenAcc (fmt : ℚ → String) (e : Rec) (sc : JSVal × ℕ) (metric : String) : JSVal × ℕ :=
  match jsGet e metric with
  | none => sc
  | some v =>
      match jsNumberOfValue v with
      | none => sc
      | some q =>
          if 0 ≤ q ∧ q ≤ 1 then (jsAdd fmt sc.1 v, sc.2 + 1)
          else (jsAdd fmt sc.1 (.num (1/2)), sc.2 + 1)

/-- Per-entity sum/count loop over the four health metrics. -/
def burdenSumCount (fmt : ℚ → String) (e : Rec) : JSVal × ℕ :=
  healthMetrics.foldl (burdenAcc fmt e) (JSVal.num 0, 0)

/-- One entity's contribution to the `healthBurdenIndex` map (entities
with a falsy id are skipped; when no metric contributes the index
defaults to `0.5`). -/
def burdenStep (fmt : ℚ → String) (level : AggLevel)
    (m : List (String × Option ℚ)) (e : Rec) : List (String × Option ℚ) :=
  match idOf level e with
  | none => m
  | some idv =>
      if idv.truthy then
        let sc := burdenSumCount fmt e
        aset m (jsToString fmt idv) (if sc.2 > 0 then jsDivNat sc.1 sc.2 else some (1/2))
      else m

/-- The `healthBurdenIndex` map construction of the data-loader
`processData`. -/
def healthBurdenIndexOf (fmt : ℚ → String) (level : AggLevel) (processed : List Rec) :
    List (String × Option ℚ) :=
  processed.foldl (burdenStep fmt level) []

/-! ## Data-loader `processData` (the pipeline orchestrator) -/

/-- A projected point `{pc1, pc2, index}`. -/
structure PCAPoint where
  pc1 : ℚ
  pc2 : ℚ
  index : ℕ
deriving DecidableEq, Repr

/-- The bundle the orchestrator returns.  It has exactly the six fields of
the source's return object — in particular no flag distinguishing the
degraded (fallback) path from the normal one. -/
structure Bundle where
  rawData : List Rec
  processedData : List Rec
  metrics : List String
  healthBurdenIndex : List (String × Option ℚ)
  pcaResult : List PCAPoint
  clusterAssignments : List ℤ
deriving DecidableEq, Repr

/-- The processed (possibly aggregated) record list of `processData`. -/
def processedOf (fmt : ℚ → String) (level : AggLevel) (rawData : List Rec) : List Rec :=
  let standardized := loaderStandardized fmt level rawData
  match level with
  | .county => standardized
  | .state => aggregateByField fmt standardized "State Abbreviation" importantMetrics
  | .region =>
      let withRegions := standardized.map (fun d =>
        aset d "Region" (.str (match jsGet d "State Abbreviation" with
          | some v => getRegionFromState (jsToString fmt v)
          | none => "Unknown")))
      aggregateByField fmt withRegions "Region" importantMetrics

/-- The `metrics` list: the allow-listed metrics for which at least one processed
record has a defined, non-`null` value. -/
def metricsOf (fmt : ℚ → String) (level : AggLevel) (rawData : List Rec) : List String :=
  let processed := processedOf fmt level rawData
  importantMetrics.filter (fun metric =>
    processed.any (fun d =>
      match jsGet d metric with
      | none => false
      | some .null => false
      | some _ => true))

/-- The feature subset used for projection: the first
`min(8, metrics.length)` available metrics. -/
def featuresOf (fmt : ℚ → String) (level : AggLevel) (rawData : List Rec) : List String :=
  let metrics := metricsOf fmt level rawData
  metrics.take (min 8 metrics.length)

/-- The `catch`-block fallback: one random projected point per processed
record (two `Math.random()` draws each, in row order), then one uniformly
drawn label `Math.floor(Math.random() * 5)` per record.  `rng i` is the
value of the `i`-th `Math.random()` call inside the catch block. -/
def fallback (processed : List Rec) (rng : ℕ → ℚ) : List PCAPoint × List ℤ :=
  let n := processed.length
  ((List.range n).map (fun i => ⟨rng (2 * i), rng (2 * i + 1), i⟩),
   (List.range n).map (fun i => Int.floor (rng (2 * n + i) * 5)))

/-- The data-loader `processData`.  The bodies of `performPCA` and
`performClustering` live in `lib/data-processing` and are invoked inside a
`try`; the orchestrator only observes either a returned value or a thrown
exception, so the two calls are abstracted as `Except`-valued parameters
(`.error` = the call threw).  Note the function itself always returns a
bundle — it has no `throw` of its own. -/
def processData (fmt : ℚ → String)
    (pcaStep : List Rec → List String → Except Unit (List PCAPoint))
    (clusterStep : List PCAPoint → ℕ → Except Unit (List ℤ))
    (rng : ℕ → ℚ) (rawData : List Rec) (level : AggLevel) : Bundle :=
  let standardized := loaderStandardized fmt level rawData
  let processed := processedOf fmt level rawData
  let hbi := healthBurdenIndexOf fmt level processed
  let metrics := metricsOf fmt level rawData
  let features := featuresOf fmt level rawData
  let pc : List PCAPoint × List ℤ :=
    if features.length > 0 then
      match pcaStep processed features with
      | .ok pca =>
          if pca.length > 0 then
            match clusterStep pca (min 5 pca.length) with
            | .ok asg => (pca, asg)
            | .error _ => fallback processed rng
          else (pca, [])
      | .error _ => fallback processed rng
    else ([], [])
  { rawData := standardized
    processedData := processed
    metrics := metrics
    healthBurdenIndex := hbi
    pcaResult := pc.1
    clusterAssignments := pc.2 }

/-! ## `lib/data-processing` `processData` (throws on empty filtered data) -/

/-- The row filter of `lib/data-processing`'s `processData` (strict `Name`,
no alias fallback). -/
def dpFilterRow (level : AggLevel) (d : Rec) : Bool :=
  match level with
  | .county =>
      truthyO (jsGet d "FIPS") && truthyO (jsGet d "Name") &&
        truthyO (jsGet d "State Abbreviation")
  | _ => truthyO (jsGet d "State Abbreviation")

/-- Level name as interpolated into the error message. -/
def levelName : AggLevel → String
  | .county => "county"
  | .state => "state"
  | .region => "region"

/-- Source `aggregateByField` of `lib/data-processing`: same mean/Count scheme as
the loader's, but it skips the grouping column itself and has no
state-FIPS/Name special case. -/
def dpAggMetrics (rows : List Rec) (field : String) (columns : List String) (acc : Rec) : Rec :=
  columns.foldl (fun acc col =>
    if col = field then acc
    else
      let values := collectVals rows col
      if values.length > 0 then aset acc col (.num (values.sum / values.length))
      else acc) acc

/-- One aggregated record of `lib/data-processing`'s `aggregateByField`. -/
def dpAggRec (field : String) (columns : List String) (key : String) (rows : List Rec) : Rec :=
  aset (dpAggMetrics rows field columns [(field, Value.str key)]) (field ++ "Count")
    (.num rows.length)

/-- Source `aggregateByField` of `lib/data-processing`. -/
def dpAggregateByField (fmt : ℚ → String) (data : List Rec) (field : String)
    (columns : List String) : List Rec :=
  (groupByField fmt data field).map (fun g => dpAggRec field columns g.1 g.2)

/-- The `lib/data-processing` exported `processData`: filters, **throws**
`"No valid data rows found for <level> level aggregation"` when nothing
survives, then aggregates by level and returns `{processed, columns}`. -/
def dpProcessData (fmt : ℚ → String) (data : List Rec) (level : AggLevel) :
    Except String (List Rec × List String) :=
  let filtered := data.filter (dpFilterRow level)
  if filtered.length = 0 then
    .error ("No valid data rows found for " ++ levelName level ++ " level aggregation")
  else
    let allColumns := (filtered.headD []).map Prod.fst
    let processed :=
      match level with
      | .county => filtered
      | .state => dpAggregateByField fmt filtered "State Abbreviation" allColumns
      | .region =>
          let withRegions := filtered.map (fun d =>
            aset d "Region" (.str (match jsGet d "State Abbreviation" with
              | some v => getRegionFromState (jsToString fmt v)
              | none => "Unknown")))
          dpAggregateByField fmt withRegions "Region" (allColumns ++ ["Region"])
    .ok (processed, (processed.headD []).map Prod.fst)

/-! ## `standardizeData` (0-mean / unit-variance columns) -/

/-- Column mean as computed by `standardizeData` (`means[j] = Σ data[i][j] / n`). -/
noncomputable def colMean (data : List (List ℝ)) (j : ℕ) : ℝ :=
  ((data.map (fun r => r.getD j 0)).sum) / data.length

/-- Column population variance (`Σ (data[i][j] - mean)² / n`), the quantity
whose square root the source stores in `stds[j]`. -/
noncomputable def colVar (data : List (List ℝ)) (j : ℕ) : ℝ :=
  ((data.map (fun r => (r.getD j 0 - colMean data j) ^ 2)).sum) / data.length

/-- The `stds[j]` value after the divide-by-zero guard: `√variance`, replaced by `1`
when it is `0`. -/
noncomputable def stdOf (data : List (List ℝ)) (j : ℕ) : ℝ :=
  let s := Real.sqrt (colVar data j)
  if s = 0 then 1 else s

/-- Column standard deviation of a matrix (no guard) — used to state the
unit-deviation property of the output. -/
noncomputable def colStd (data : List (List ℝ)) (j : ℕ) : ℝ :=
  Real.sqrt (colVar data j)

/-- Source `standardizeData`: `(data[i][j] - means[j]) / stds[j]`, producing
`numFeatures = data[0].length` entries per row. -/
noncomputable def standardizeData (data : List (List ℝ)) : List (List ℝ) :=
  let numFeatures := (data.headD []).length
  data.map (fun row =>
    (List.range numFeatures).map (fun j => (row.getD j 0 - colMean data j) / stdOf data j))

/-! ## `kMeansClustering` -/

/-- Squared Euclidean distance (the sum inside `euclideanDistance`, before
`Math.sqrt`); the scan length is `a.length` as in the source loop. -/
def sqDist (a b : List ℚ) : ℚ :=
  ((List.range a.length).map (fun i => (a.getD i 0 - b.getD i 0) ^ 2)).sum

/-- Source `euclideanDistance`. -/
noncomputable def euclideanDistance (a b : List ℚ) : ℝ :=
  Real.sqrt (sqDist a b)

/-- Index of the nearest centroid: left-to-right scan, strict `<` against
the running minimum (initially `+∞`), so ties keep the earliest centroid
and an empty centroid list yields `0`.  The source compares
`euclideanDistance` values; `√` is strictly monotone on nonnegatives, so
comparing the rational squared distances is exactly equivalent (see
`euclideanDistance_lt_iff`). -/
def nearestCentroid (p : List ℚ) (cs : List (List ℚ)) : ℕ :=
  ((cs.enum.foldl (fun (best : Option (ℕ × ℚ)) jc =>
      let d := sqDist p jc.2
      match best with
      | none => some (jc.1, d)
      | some bd => if d < bd.2 then some (jc.1, d) else best) none).map Prod.fst).getD 0

/-- Centroid initialization: draw random indices until `k` distinct ones
are collected.  `picks` realizes the stream of `Math.floor(Math.random()*n)`
draws (each reduced `% points.length` to land in `[0, n)` as the source's
draws do); `none` models the source loop never terminating because the
supplied stream runs out before `k` distinct indices appear. -/
def initCentroids (points : List (List ℚ)) (k : ℕ) :
    List ℕ → List (List ℚ) → List ℕ → Option (List (List ℚ))
  | picks, cs, used =>
    if k ≤ cs.length then some cs
    else
      match picks with
      | [] => none
      | p :: rest =>
          let idx := p % points.length
          if idx ∈ used then initCentroids points k rest cs used
          else initCentroids points k rest (cs ++ [points.getD idx []]) (idx :: used)

/-- Assignment pass: nearest centroid for every point. -/
def assignAll (points : List (List ℚ)) (cs : List (List ℚ)) : List ℕ :=
  points.map (fun p => nearestCentroid p cs)

/-- Centroid update pass: each centroid with at least one assigned point
becomes the mean of its points; empty clusters keep their centroid. -/
def updateCentroids (points : List (List ℚ)) (asg : List ℕ) (cs : List (List ℚ))
    (k : ℕ) : List (List ℚ) :=
  let dim := (points.headD []).length
  (List.range k).map (fun c =>
    let assigned := ((asg.zip points).filter (fun x => x.1 = c)).map Prod.snd
    if assigned.length > 0 then
      (List.range dim).map (fun j => ((assigned.map (fun p => p.getD j 0)).sum) / assigned.length)
    else cs.getD c [])

/-- The `while (changed && iterations < MAX_ITERATIONS)` loop, fuel =
remaining iterations (100 at the top): one assignment+update pass per
iteration, stopping early when no assignment changed. -/
def kLoop (points : List (List ℚ)) (k : ℕ) :
    ℕ → List ℕ → List (List ℚ) → List ℕ × List (List ℚ)
  | 0, asg, cs => (asg, cs)
  | fuel + 1, asg, cs =>
      let newAsg := assignAll points cs
      let newCs := updateCentroids points newAsg cs k
      if newAsg ≠ asg then kLoop points k fuel newAsg newCs else (newAsg, newCs)

/-- Source `kMeansClustering`: `n = 0` returns empty assignments immediately;
otherwise random distinct centroids, then at most 100 assignment/update
iterations starting from the all-zero assignment. -/
def kMeansClustering (points : List (List ℚ)) (k : ℕ) (picks : List ℕ) :
    Option (List ℕ × List (List ℚ)) :=
  if points.length = 0 then some ([], [])
  else
    (initCentroids points k picks [] []).map (fun cs =>
      kLoop points k 100 (List.replicate points.length 0) cs)

/-! ## `calculateCorrelation` (components/data-uploader) -/

/-- Pair extraction: string values go through `Number.parseFloat`, and the
pair is kept when both sides are defined, non-`null` and non-`NaN`. -/
def corrCoerce (r : Rec) (metric : String) : Option ℚ :=
  match jsGet r metric with
  | none => none
  | some Value.null => none
  | some (.num q) => some q
  | some (.str s) => jsParseFloat s

/-- The valid `(x, y)` pairs of `calculateCorrelation`. -/
def validPairs (data : List Rec) (xMetric yMetric : String) : List (ℚ × ℚ) :=
  data.filterMap (fun d =>
    match corrCoerce d xMetric, corrCoerce d yMetric with
    | some a, some b => some (a, b)
    | _, _ => none)

/-- The sum `Σ (x - x̄)(y - ȳ)` over the valid pairs. -/
def corrNumerator (pairs : List (ℚ × ℚ)) : ℚ :=
  let xMean := (pairs.map Prod.fst).sum / pairs.length
  let yMean := (pairs.map Prod.snd).sum / pairs.length
  (pairs.map (fun p => (p.1 - xMean) * (p.2 - yMean))).sum

/-- The sum `Σ (x - x̄)²` over the valid pairs. -/
def corrXDen (pairs : List (ℚ × ℚ)) : ℚ :=
  let xMean := (pairs.map Prod.fst).sum / pairs.length
  (pairs.map (fun p => (p.1 - xMean) * (p.1 - xMean))).sum

/-- The sum `Σ (y - ȳ)²` over the valid pairs. -/
def corrYDen (pairs : List (ℚ × ℚ)) : ℚ :=
  let yMean := (pairs.map Prod.snd).sum / pairs.length
  (pairs.map (fun p => (p.2 - yMean) * (p.2 - yMean))).sum

/-- Source `calculateCorrelation`: `NaN` (modelled `none`) for fewer than two
valid pairs or a zero denominator sum, otherwise
`numerator / √(xDenominator * yDenominator)`. -/
noncomputable def calculateCorrelation (data : List Rec) (xMetric yMetric : String) :
    Option ℝ :=
  let pairs := validPairs data xMetric yMetric
  if pairs.length < 2 then none
  else if corrXDen pairs = 0 ∨ corrYDen pairs = 0 then none
  else some ((corrNumerator pairs : ℝ) /
    Real.sqrt ((corrXDen pairs : ℝ) * (corrYDen pairs : ℝ)))

/-! ## Association-list lemmas -/

theorem lookup_cons (k a1 : String) (a2 : α) (t : List (String × α)) :
    List.lookup k ((a1, a2) :: t) = if k = a1 then some a2 else List.lookup k t := by
  by_cases h : k = a1
  · simp [List.lookup, h]
  · simp [List.lookup, h, beq_eq_false_iff_ne.mpr h]

theorem lookup_replace_self (r : List (String × α)) (k : String) (v : α)
    (h : (List.lookup k r).isSome = true) :
    List.lookup k (r.map (fun p => if p.1 = k then (k, v) else p)) = some v := by
  induction r with
  | nil => simp [List.lookup] at h
  | cons a t ih =>
      obtain ⟨a1, a2⟩ := a
      by_cases hk : a1 = k
      · subst hk
        simp [lookup_cons]
      · have h' : (List.lookup k t).isSome = true := by
          simpa [lookup_cons, Ne.symm hk] using h
        simp [lookup_cons, hk, Ne.symm hk, ih h']

theorem lookup_append_single_self (r : List (String × α)) (k : String) (v : α)
    (h : List.lookup k r = none) :
    List.lookup k (r ++ [(k, v)]) = some v := by
  induction r with
  | nil => simp [lookup_cons]
  | cons a t ih =>
      obtain ⟨a1, a2⟩ := a
      by_cases hk : k = a1
      · simp [lookup_cons, hk] at h
      · have h' : List.lookup k t = none := by simpa [lookup_cons, hk] using h
        simp [lookup_cons, hk, ih h']

theorem lookup_replace_ne (r : List (String × α)) (k k' : String) (v : α) (h : k' ≠ k) :
    List.lookup k' (r.map (fun p => if p.1 = k then (k, v) else p)) = List.lookup k' r := by
  induction r with
  | nil => simp
  | cons a t ih =>
      obtain ⟨a1, a2⟩ := a
      by_cases hk : a1 = k
      · simp [lookup_cons, hk, h, ih]
      · simp [lookup_cons, hk, ih]

theorem lookup_append_single_ne (r : List (String × α)) (k k' : String) (v : α) (h : k' ≠ k) :
    List.lookup k' (r ++ [(k, v)]) = List.lookup k' r := by
  induction r with
  | nil => simp [lookup_cons, h]
  | cons a t ih =>
      obtain ⟨a1, a2⟩ := a
      by_cases hk : k' = a1 <;> simp [lookup_cons, hk, ih]

theorem jsGet_aset_self (r : List (String × α)) (k : String) (v : α) :
    jsGet (aset r k v) k = some v := by
  show List.lookup k (aset r k v) = some v
  unfold aset
  by_cases h : (List.lookup k r).isSome = true
  · rw [if_pos (by simpa [jsGet] using h)]
    exact lookup_replace_self r k v h
  · rw [if_neg (by simpa [jsGet] using h)]
    exact lookup_append_single_self r k v (Option.not_isSome_iff_eq_none.mp h)

theorem jsGet_aset_ne (r : List (String × α)) (k k' : String) (v : α) (h : k' ≠ k) :
    jsGet (aset r k v) k' = jsGet r k' := by
  show List.lookup k' (aset r k v) = List.lookup k' r
  unfold aset
  by_cases hs : (List.lookup k r).isSome = true
  · rw [if_pos (by simpa [jsGet] using hs)]
    exact lookup_replace_ne r k k' v h
  · rw [if_neg (by simpa [jsGet] using hs)]
    exact lookup_append_single_ne r k k' v h

/-- Reading a key through a value-rewriting map. -/
theorem jsGet_mapVals (r : Rec) (f : String → Value → Value) (k : String) :
    jsGet (r.map (fun p => (p.1, f p.1 p.2))) k = (jsGet r k).map (f k) := by
  induction r with
  | nil => rfl
  | cons a t ih =>
      obtain ⟨a1, a2⟩ := a
      by_cases hk : k = a1
      · simp [jsGet, lookup_cons, hk]
      · simpa [jsGet, lookup_cons, hk] using ih

/-- A fixed number formatter for concrete evaluations (the digits of the
formatter are irrelevant to every property proved here). -/
def fmtW : ℚ → String := fun _ => "0"

unseal Rat.mul Rat.add Rat.inv Rat.sub in
/-- C2, counterexample.  The claim says a partially-parsing string such as
`"12abc"` is rejected by the field-standardization coercion and stays a
string; the coercion pass of `processData` in fact uses
`Number.parseFloat` and turns it into the number `12`, although `"12abc"`
does not fully parse (`Number` gives `NaN`). -/
theorem C2_counterexample :
    jsGet (coerceRow [("x", Value.str "12abc")]) "x" = some (Value.num 12) ∧
    jsNumberFull "12abc" = none := by
  decide

/-- C2, amended.  During the field-standardization coercion a string value
of a non-identifier column is coerced through `Number.parseFloat`: it
becomes a number whenever a numeric *prefix* parses (so `"12abc"` becomes
`12`), and stays a string only when no prefix parses; the full-parse rule
the claim describes holds in `parseCSV` instead, whose cells stay strings
whenever `Number` rejects them. -/
theorem C2_amended (r : Rec) (k s : String)
    (hk : ¬(k = "FIPS" ∨ k = "Name" ∨ k = "State Abbreviation"))
    (hs : jsGet r k = some (Value.str s)) :
    (∀ q, jsParseFloat s = some q → s ≠ "" →
        jsGet (coerceRow r) k = some (Value.num q)) ∧
    (jsParseFloat s = none → jsGet (coerceRow r) k = some (Value.str s)) ∧
    (∀ t : String, jsNumberFull (jsTrim t) = none →
        cellValue (some t) = Value.str (jsTrim t)) := by
  have hmap : jsGet (coerceRow r) k = (jsGet r k).map (coerceVal k) :=
    jsGet_mapVals r coerceVal k
  refine ⟨?_, ?_, ?_⟩
  · intro q hq hne
    rw [hmap, hs]
    simp [coerceVal, hk, hne, hq]
  · intro hq
    rw [hmap, hs]
    by_cases hne : s = ""
    · simp [coerceVal, hk, hne]
    · simp [coerceVal, hk, hne, hq]
  · intro t ht
    simp [cellValue, ht]

unseal Rat.mul Rat.add Rat.inv Rat.sub in
/-- C2, witness: the amended theorem at the concrete record
`{x: "12abc"}`. -/
theorem C2_witness :
    jsGet (coerceRow [("x", Value.str "12abc")]) "x" = some (Value.num 12) ∧
    cellValue (some "12abc") = Value.str "12abc" := by
  have h := C2_amended [("x", Value.str "12abc")] "x" "12abc" (by decide) (by decide)
  refine ⟨h.1 12 (by decide) (by decide), ?_⟩
  have h2 := h.2.2 "12abc" (by decide)
  rwa [show jsTrim "12abc" = "12abc" from rfl] at h2

/-! ## Aggregator lemmas -/

theorem aggMetrics_cons (rows : List Rec) (m : String) (ms : List String) (acc : Rec) :
    aggMetrics rows (m :: ms) acc =
      aggMetrics rows ms
        (if (collectVals rows m).length > 0 then
          aset acc m (.num ((collectVals rows m).sum / (collectVals rows m).length))
        else acc) := by
  simp [aggMetrics]

theorem aggMetrics_lookup_notmem (rows : List Rec) (metrics : List String) (acc : Rec)
    (metric : String) (hm : metric ∉ metrics) :
    jsGet (aggMetrics rows metrics acc) metric = jsGet acc metric := by
  induction metrics generalizing acc with
  | nil => rfl
  | cons m ms ih =>
      have hmm : metric ∉ ms := fun h => hm (List.mem_cons_of_mem _ h)
      have hne : metric ≠ m := fun h => hm (h ▸ List.mem_cons_self m ms)
      rw [aggMetrics_cons, ih _ hmm]
      by_cases hlen : (collectVals rows m).length > 0
      · rw [if_pos hlen, jsGet_aset_ne _ _ _ _ hne]
      · rw [if_neg hlen]

theorem aggMetrics_lookup (rows : List Rec) (metrics : List String) (acc : Rec)
    (metric : String) (hm : metric ∈ metrics) :
    jsGet (aggMetrics rows metrics acc) metric =
      if (collectVals rows metric).length > 0 then
        some (Value.num ((collectVals rows metric).sum / (collectVals rows metric).length))
      else jsGet acc metric := by
  induction metrics generalizing acc with
  | nil => cases hm
  | cons m ms ih =>
      rw [aggMetrics_cons]
      by_cases hmem : metric ∈ ms
      · rw [ih _ hmem]
        by_cases hlen : (collectVals rows metric).length > 0
        · rw [if_pos hlen, if_pos hlen]
        · rw [if_neg hlen, if_neg hlen]
          by_cases hme : metric = m
          · subst hme
            rw [if_neg hlen]
          · by_cases hl : (collectVals rows m).length > 0
            · rw [if_pos hl, jsGet_aset_ne _ _ _ _ hme]
            · rw [if_neg hl]
      · have hme : metric = m := by
          rcases List.mem_cons.mp hm with h | h
          · exact h
          · exact absurd h hmem
        subst hme
        rw [aggMetrics_lookup_notmem _ _ _ _ hmem]
        by_cases hlen : (collectVals rows metric).length > 0
        · rw [if_pos hlen, if_pos hlen, jsGet_aset_self]
        · rw [if_neg hlen, if_neg hlen]

/-- Reads of keys other than FIPS and Name pass through `stateExtras`
unchanged. -/
theorem jsGet_stateExtras_ne (fmt : ℚ → String) (key : String) (rows : List Rec)
    (r : Rec) (k : String) (h3 : k ≠ "FIPS") (h4 : k ≠ "Name") :
    jsGet (stateExtras fmt key rows r) k = jsGet r k := by
  unfold stateExtras
  rcases ((rows.find? (fun row => truthyO (jsGet row "FIPS"))).bind
      (fun row => jsGet row "FIPS")) with _ | v <;>
    rcases ((rows.find? (fun row => truthyO (jsGet row "Name"))).bind
      (fun row => jsGet row "Name")) with _ | w <;>
    simp only [] <;>
    split_ifs <;>
    simp [jsGet_aset_ne, h3, h4]

/-- Lookup of a metric in one aggregated record, pushed through the
Count and state-level special-case writes. -/
theorem aggRec_lookup_metric (fmt : ℚ → String) (field : String) (metrics : List String)
    (key : String) (rows : List Rec) (metric : String)
    (hm : metric ∈ metrics) (h1 : metric ≠ field) (h2 : metric ≠ field ++ "Count")
    (h3 : metric ≠ "FIPS") (h4 : metric ≠ "Name") :
    jsGet (aggRec fmt field metrics key rows) metric =
      if (collectVals rows metric).length > 0 then
        some (Value.num ((collectVals rows metric).sum / (collectVals rows metric).length))
      else none := by
  have hbase : jsGet (aggMetrics rows metrics [(field, Value.str key)]) metric =
      if (collectVals rows metric).length > 0 then
        some (Value.num ((collectVals rows metric).sum / (collectVals rows metric).length))
      else none := by
    rw [aggMetrics_lookup _ _ _ _ hm]
    by_cases hlen : (collectVals rows metric).length > 0
    · rw [if_pos hlen, if_pos hlen]
    · rw [if_neg hlen, if_neg hlen]
      simp [jsGet, lookup_cons, h1]
  unfold aggRec
  by_cases hf : field = "State Abbreviation"
  · rw [if_pos hf, jsGet_stateExtras_ne _ _ _ _ _ h3 h4, jsGet_aset_ne _ _ _ _ h2]
    exact hbase
  · rw [if_neg hf, jsGet_aset_ne _ _ _ _ h2]
    exact hbase

/-- Lookup of the Count field in one aggregated record. -/
theorem aggRec_lookup_count (fmt : ℚ → String) (field : String) (metrics : List String)
    (key : String) (rows : List Rec)
    (hc1 : field ++ "Count" ≠ "FIPS") (hc2 : field ++ "Count" ≠ "Name") :
    jsGet (aggRec fmt field metrics key rows) (field ++ "Count") =
      some (Value.num rows.length) := by
  unfold aggRec
  by_cases hf : field = "State Abbreviation"
  · rw [if_pos hf, jsGet_stateExtras_ne _ _ _ _ _ hc1 hc2]
    exact jsGet_aset_self _ _ _
  · rw [if_neg hf]
    exact jsGet_aset_self _ _ _

/-- C5.  For every group produced by `aggregateByField` and every
aggregated metric (one that does not collide with the grouping field, the
Count field, or the state-level bookkeeping fields FIPS/Name): the group's
record is in the output; when at least one row contributes a defined,
non-`null`, `Number`-coercible value the metric is the arithmetic mean of
exactly those values (absent entries contribute nothing); when no such
value exists the metric key is omitted; and the Count field always equals
the number of rows of the group. -/
theorem C5_aggregate_mean (fmt : ℚ → String) (data : List Rec) (field : String)
    (metrics : List String) (metric key : String) (rows : List Rec)
    (hg : (key, rows) ∈ groupByField fmt data field)
    (hm : metric ∈ metrics) (h1 : metric ≠ field) (h2 : metric ≠ field ++ "Count")
    (h3 : metric ≠ "FIPS") (h4 : metric ≠ "Name")
    (hc1 : field ++ "Count" ≠ "FIPS") (hc2 : field ++ "Count" ≠ "Name") :
    aggRec fmt field metrics key rows ∈ aggregateByField fmt data field metrics ∧
    ((collectVals rows metric).length > 0 →
      jsGet (aggRec fmt field metrics key rows) metric =
        some (Value.num ((collectVals rows metric).sum /
          (collectVals rows metric).length))) ∧
    ((collectVals rows metric).length = 0 →
      jsGet (aggRec fmt field metrics key rows) metric = none) ∧
    jsGet (aggRec fmt field metrics key rows) (field ++ "Count") =
      some (Value.num rows.length) := by
  refine ⟨?_, ?_, ?_, aggRec_lookup_count fmt field metrics key rows hc1 hc2⟩
  · exact List.mem_map.mpr ⟨(key, rows), hg, rfl⟩
  · intro hlen
    rw [aggRec_lookup_metric fmt field metrics key rows metric hm h1 h2 h3 h4, if_pos hlen]
  · intro hlen
    rw [aggRec_lookup_metric fmt field metrics key rows metric hm h1 h2 h3 h4,
      if_neg (by simp [hlen])]

/-- Concrete three-row group for the C5 witness: metric values `10`, `20`
and one missing entry. -/
def c5Rows : List Rec :=
  [[("G", Value.str "g"), ("m", Value.num 10)],
   [("G", Value.str "g"), ("m", Value.num 20)],
   [("G", Value.str "g")]]

unseal Rat.mul Rat.add Rat.inv Rat.sub in
/-- C5, witness: a group with metric values `[10, 20, missing]` aggregates
to mean `15` with Count `3`, via the C5 theorem at that concrete group. -/
theorem C5_witness :
    jsGet (aggRec fmtW "G" ["m"] "g" c5Rows) "m" = some (Value.num 15) ∧
    jsGet (aggRec fmtW "G" ["m"] "g" c5Rows) "GCount" = some (Value.num 3) := by
  have h := C5_aggregate_mean fmtW c5Rows "G" ["m"] "m" "g" c5Rows
    (by decide) (by decide) (by decide) (by decide) (by decide) (by decide)
    (by decide) (by decide)
  have hvals : collectVals c5Rows "m" = [10, 20] := by decide
  refine ⟨?_, ?_⟩
  · have h2 := h.2.1 (by rw [hvals]; decide)
    rw [hvals] at h2
    rw [h2]
    norm_num
  · exact h.2.2.2

/-- C10.  A blank CSV cell is stored by `parseCSV` as the empty string
(not as an absent value); the aggregator's value filter accepts it because
`Number("")` is `0`; and for any group and metric containing such a cell,
the value `0` is among the contributing values and the aggregated metric
is the mean over a value list that includes it. -/
theorem C10_blank_cell (s : String) (hs : jsTrim s = "")
    (fmt : ℚ → String) (data : List Rec) (field : String) (metrics : List String)
    (metric key : String) (rows : List Rec)
    (hg : (key, rows) ∈ groupByField fmt data field)
    (hm : metric ∈ metrics) (h1 : metric ≠ field) (h2 : metric ≠ field ++ "Count")
    (h3 : metric ≠ "FIPS") (h4 : metric ≠ "Name")
    (r : Rec) (hr : r ∈ rows) (hv : jsGet r metric = some (Value.str "")) :
    cellValue (some s) = Value.str "" ∧
    jsNumberOfValue (Value.str "") = some 0 ∧
    (0 : ℚ) ∈ collectVals rows metric ∧
    jsGet (aggRec fmt field metrics key rows) metric =
      some (Value.num ((collectVals rows metric).sum /
        (collectVals rows metric).length)) := by
  have hzero : (0 : ℚ) ∈ collectVals rows metric := by
    unfold collectVals
    refine List.mem_filterMap.mpr ⟨r, hr, ?_⟩
    rw [hv]
    rfl
  have hlen : (collectVals rows metric).length > 0 :=
    List.length_pos.mpr (List.ne_nil_of_mem hzero)
  refine ⟨?_, rfl, hzero, ?_⟩
  · simp [cellValue, hs]
  · rw [aggRec_lookup_metric fmt field metrics key rows metric hm h1 h2 h3 h4,
      if_pos hlen]

/-- Concrete two-row group for the C10 witness: one numeric value `4` and
one blank cell. -/
def c10Rows : List Rec :=
  [[("G", Value.str "g"), ("m", Value.num 4)],
   [("G", Value.str "g"), ("m", Value.str "")]]

unseal Rat.mul Rat.add Rat.inv Rat.sub in
/-- C10, witness: in a group with metric values `[4, ""]` the blank cell
contributes `0`, giving mean `2`; via the C10 theorem at that group. -/
theorem C10_witness :
    (0 : ℚ) ∈ collectVals c10Rows "m" ∧
    jsGet (aggRec fmtW "G" ["m"] "g" c10Rows) "m" = some (Value.num 2) := by
  have h := C10_blank_cell "" (by decide) fmtW c10Rows "G" ["m"] "m" "g" c10Rows
    (by decide) (by decide) (by decide) (by decide) (by decide) (by decide)
    [("G", Value.str "g"), ("m", Value.str "")] (by decide) (by decide)
  refine ⟨h.2.2.1, ?_⟩
  have h4 := h.2.2.2
  rw [show collectVals c10Rows "m" = [4, 0] from by decide] at h4
  rw [h4]
  norm_num

/-! ## Burden-index lemmas -/

/-- Entities whose id renders to a different key leave a burden-map entry
unchanged. -/
theorem burden_fold_preserves (fmt : ℚ → String) (level : AggLevel) (sid : String)
    (post : List Rec) (m : List (String × Option ℚ))
    (hpost : ∀ e' ∈ post, ∀ idv', idOf level e' = some idv' → idv'.truthy = true →
      jsToString fmt idv' ≠ sid) :
    jsGet (post.foldl (burdenStep fmt level) m) sid = jsGet m sid := by
  induction post generalizing m with
  | nil => rfl
  | cons e' t ih =>
      rw [List.foldl_cons, ih _ (fun x hx => hpost x (List.mem_cons_of_mem _ hx))]
      unfold burdenStep
      rcases hid : idOf level e' with _ | idv
      · rfl
      · by_cases ht : idv.truthy
        · simp only [ht, if_true]
          exact jsGet_aset_ne _ _ _ _
            (Ne.symm (hpost e' (List.mem_cons_self _ _) idv hid ht))
        · simp only [ht, Bool.false_eq_true, if_false]

/-- The burden-map entry of an entity that is the last writer of its key. -/
theorem burden_lookup_entity (fmt : ℚ → String) (level : AggLevel)
    (pre post : List Rec) (e : Rec) (idv : Value)
    (hid : idOf level e = some idv) (ht : idv.truthy = true)
    (hpost : ∀ e' ∈ post, ∀ idv', idOf level e' = some idv' → idv'.truthy = true →
      jsToString fmt idv' ≠ jsToString fmt idv) :
    jsGet (healthBurdenIndexOf fmt level (pre ++ e :: post)) (jsToString fmt idv) =
      some (if (burdenSumCount fmt e).2 > 0 then
        jsDivNat (burdenSumCount fmt e).1 (burdenSumCount fmt e).2
      else some (1/2)) := by
  unfold healthBurdenIndexOf
  rw [List.foldl_append, List.foldl_cons, burden_fold_preserves fmt level _ post _ hpost]
  show jsGet (burdenStep fmt level _ e) _ = _
  unfold burdenStep
  rw [hid]
  simp only [ht, if_true]
  exact jsGet_aset_self _ _ _

/-- One burden step on a present numeric metric inside `[0,1]`. -/
theorem burdenAcc_num (fmt : ℚ → String) (e : Rec) (metric : String) (a : ℚ) (c : ℕ)
    (q : ℚ) (hm : jsGet e metric = some (Value.num q)) (h0 : 0 ≤ q) (h1 : q ≤ 1) :
    burdenAcc fmt e (JSVal.num a, c) metric = (JSVal.num (a + q), c + 1) := by
  unfold burdenAcc
  rw [hm]
  simp only [jsNumberOfValue]
  rw [if_pos ⟨h0, h1⟩]
  rfl

/-- One burden step on an absent metric. -/
theorem burdenAcc_absent (fmt : ℚ → String) (e : Rec) (metric : String)
    (sc : JSVal × ℕ) (hm : jsGet e metric = none) :
    burdenAcc fmt e sc metric = sc := by
  unfold burdenAcc
  rw [hm]

/-- Sum/count over the four health metrics when all four are present,
numeric, and inside `[0,1]`. -/
theorem burdenSumCount_all4 (fmt : ℚ → String) (e : Rec) (q1 q2 q3 q4 : ℚ)
    (hA : jsGet e "Adult Obesity raw value" = some (Value.num q1))
    (hF : jsGet e "Food Insecurity raw value" = some (Value.num q2))
    (hP : jsGet e "Physical Inactivity raw value" = some (Value.num q3))
    (hH : jsGet e "Poor or Fair Health raw value" = some (Value.num q4))
    (h1a : 0 ≤ q1) (h1b : q1 ≤ 1) (h2a : 0 ≤ q2) (h2b : q2 ≤ 1)
    (h3a : 0 ≤ q3) (h3b : q3 ≤ 1) (h4a : 0 ≤ q4) (h4b : q4 ≤ 1) :
    burdenSumCount fmt e = (JSVal.num (q1 + q2 + q3 + q4), 4) := by
  unfold burdenSumCount healthMetrics
  simp only [List.foldl_cons, List.foldl_nil]
  rw [burdenAcc_num fmt e _ _ _ _ hA h1a h1b, burdenAcc_num fmt e _ _ _ _ hF h2a h2b,
    burdenAcc_num fmt e _ _ _ _ hP h3a h3b, burdenAcc_num fmt e _ _ _ _ hH h4a h4b]
  norm_num

/-- Sum/count over the four health metrics when none is present. -/
theorem burdenSumCount_none (fmt : ℚ → String) (e : Rec)
    (hA : jsGet e "Adult Obesity raw value" = none)
    (hF : jsGet e "Food Insecurity raw value" = none)
    (hP : jsGet e "Physical Inactivity raw value" = none)
    (hH : jsGet e "Poor or Fair Health raw value" = none) :
    burdenSumCount fmt e = (JSVal.num 0, 0) := by
  unfold burdenSumCount healthMetrics
  simp only [List.foldl_cons, List.foldl_nil]
  rw [burdenAcc_absent fmt e _ _ hA, burdenAcc_absent fmt e _ _ hF,
    burdenAcc_absent fmt e _ _ hP, burdenAcc_absent fmt e _ _ hH]

/-- C4.  For a processed entity with a truthy id (FIPS / state
abbreviation / region per level) that is the last entity writing its id
key: when all four health metrics are present, numeric, and inside
`[0,1]`, the burden index at that id is exactly their arithmetic mean;
when none of the four is present, it is exactly `0.5`. -/
theorem C4_burden_index (fmt : ℚ → String) (level : AggLevel)
    (pre post : List Rec) (e : Rec) (idv : Value)
    (hid : idOf level e = some idv) (ht : idv.truthy = true)
    (hpost : ∀ e' ∈ post, ∀ idv', idOf level e' = some idv' → idv'.truthy = true →
      jsToString fmt idv' ≠ jsToString fmt idv) :
    (∀ q1 q2 q3 q4,
      jsGet e "Adult Obesity raw value" = some (Value.num q1) →
      jsGet e "Food Insecurity raw value" = some (Value.num q2) →
      jsGet e "Physical Inactivity raw value" = some (Value.num q3) →
      jsGet e "Poor or Fair Health raw value" = some (Value.num q4) →
      0 ≤ q1 → q1 ≤ 1 → 0 ≤ q2 → q2 ≤ 1 → 0 ≤ q3 → q3 ≤ 1 → 0 ≤ q4 → q4 ≤ 1 →
      jsGet (healthBurdenIndexOf fmt level (pre ++ e :: post)) (jsToString fmt idv) =
        some (some ((q1 + q2 + q3 + q4) / 4))) ∧
    (jsGet e "Adult Obesity raw value" = none →
      jsGet e "Food Insecurity raw value" = none →
      jsGet e "Physical Inactivity raw value" = none →
      jsGet e "Poor or Fair Health raw value" = none →
      jsGet (healthBurdenIndexOf fmt level (pre ++ e :: post)) (jsToString fmt idv) =
        some (some (1/2 : ℚ))) := by
  constructor
  · intro q1 q2 q3 q4 hA hF hP hH h1a h1b h2a h2b h3a h3b h4a h4b
    rw [burden_lookup_entity fmt level pre post e idv hid ht hpost,
      burdenSumCount_all4 fmt e q1 q2 q3 q4 hA hF hP hH h1a h1b h2a h2b h3a h3b h4a h4b]
    norm_num [jsDivNat]
  · intro hA hF hP hH
    rw [burden_lookup_entity fmt level pre post e idv hid ht hpost,
      burdenSumCount_none fmt e hA hF hP hH]
    norm_num

/-- Concrete entity for the C4 witness: all four health metrics present
in `[0,1]`. -/
def c4E1 : Rec :=
  [("FIPS", Value.str "01001"), ("Adult Obesity raw value", Value.num (3/10)),
   ("Food Insecurity raw value", Value.num (1/10)),
   ("Physical Inactivity raw value", Value.num (2/10)),
   ("Poor or Fair Health raw value", Value.num (4/10))]

/-- Concrete entity for the C4 witness: none of the four metrics
present. -/
def c4E2 : Rec := [("FIPS", Value.str "02001")]

/-- C4, witness: the theorem at a county entity with metric values
`0.3, 0.1, 0.2, 0.4` (index `= 0.25`, their exact mean) and at one with no
metrics (index `= 0.5`). -/
theorem C4_witness :
    jsGet (healthBurdenIndexOf fmtW AggLevel.county [c4E1]) "01001" =
      some (some (1/4 : ℚ)) ∧
    jsGet (healthBurdenIndexOf fmtW AggLevel.county [c4E2]) "02001" =
      some (some (1/2 : ℚ)) := by
  constructor
  · have h := (C4_burden_index fmtW AggLevel.county [] [] c4E1 (Value.str "01001")
      (by rfl) (by decide) (fun e' he' => absurd he' (List.not_mem_nil _))).1
      (3/10) (1/10) (2/10) (4/10) (by rfl) (by rfl) (by rfl) (by rfl)
      (by norm_num) (by norm_num) (by norm_num) (by norm_num)
      (by norm_num) (by norm_num) (by norm_num) (by norm_num)
    have h' : ((3:ℚ)/10 + 1/10 + 2/10 + 4/10) / 4 = 1/4 := by norm_num
    rw [h', show ([] : List Rec) ++ c4E1 :: [] = [c4E1] from rfl] at h
    exact h
  · have h := (C4_burden_index fmtW AggLevel.county [] [] c4E2 (Value.str "02001")
      (by rfl) (by decide) (fun e' he' => absurd he' (List.not_mem_nil _))).2
      (by rfl) (by rfl) (by rfl) (by rfl)
    rw [show ([] : List Rec) ++ c4E2 :: [] = [c4E2] from rfl] at h
    exact h

/-- C1, counterexample.  The claim says the pipeline orchestrator
`processData` fails with a `NoValidRows` error on an empty filtered set;
the data-loader `processData` (the function that actually produces the
pipeline bundle) has no such check: on an empty input array it returns a
normal bundle whose every field is empty — a silent empty success. -/
theorem C1_counterexample :
    processData fmtW (fun _ _ => Except.error ()) (fun _ _ => Except.error ())
      (fun _ => 0) [] AggLevel.county =
      { rawData := [], processedData := [], metrics := [], healthBurdenIndex := [],
        pcaResult := [], clusterAssignments := [] } := by
  rfl

/-- C1, amended.  When field standardization and filtering leave no rows,
the data-loader orchestrator `processData` returns a bundle of empty
results without any error, while the `lib/data-processing` `processData`
(not invoked by the pipeline) is the function that throws the
`"No valid data rows found"` error on its empty filtered set. -/
theorem C1_amended (fmt : ℚ → String)
    (pcaStep : List Rec → List String → Except Unit (List PCAPoint))
    (clusterStep : List PCAPoint → ℕ → Except Unit (List ℤ))
    (rng : ℕ → ℚ) (data : List Rec) (level : AggLevel) :
    ((data.map coerceRow).filter (filterRow level) = [] →
      processData fmt pcaStep clusterStep rng data level =
        { rawData := [], processedData := [], metrics := [], healthBurdenIndex := [],
          pcaResult := [], clusterAssignments := [] }) ∧
    (data.filter (dpFilterRow level) = [] →
      dpProcessData fmt data level =
        Except.error ("No valid data rows found for " ++ levelName level ++
          " level aggregation")) := by
  constructor
  · intro h
    have hstd : loaderStandardized fmt level data = [] := by
      unfold loaderStandardized
      rw [h]
      rfl
    have hproc : processedOf fmt level data = [] := by
      unfold processedOf
      rw [hstd]
      cases level <;> rfl
    have hmet : metricsOf fmt level data = [] := by
      unfold metricsOf
      rw [hproc]
      simp [importantMetrics]
    have hfeat : featuresOf fmt level data = [] := by
      unfold featuresOf
      rw [hmet]
      rfl
    unfold processData
    rw [hstd, hproc, hmet, hfeat]
    rfl
  · intro h
    unfold dpProcessData
    rw [h]
    rfl

/-- C1, witness: the amended theorem at the empty input array. -/
theorem C1_witness :
    processData fmtW (fun _ _ => Except.ok []) (fun _ _ => Except.ok [])
      (fun _ => 0) [] AggLevel.state =
      { rawData := [], processedData := [], metrics := [], healthBurdenIndex := [],
        pcaResult := [], clusterAssignments := [] } ∧
    dpProcessData fmtW [] AggLevel.state =
      Except.error "No valid data rows found for state level aggregation" := by
  have h := C1_amended fmtW (fun _ _ => Except.ok []) (fun _ _ => Except.ok [])
    (fun _ => 0) [] AggLevel.state
  exact ⟨h.1 rfl, h.2 rfl⟩

/-! ## Field-standardization lemmas -/

theorem truthyO_jsOr (a b : Option Value) :
    truthyO (jsOr a b) = (truthyO a || truthyO b) := by
  unfold jsOr
  by_cases h : truthyO a = true
  · simp [h]
  · simp [h, Bool.eq_false_iff.mpr h]

theorem truthyO_some (o : Option Value) (h : truthyO o = true) :
    ∃ v, o = some v ∧ v.truthy = true := by
  cases o with
  | none => simp [truthyO] at h
  | some v => exact ⟨v, rfl, h⟩

theorem padStart_length (s : String) (n : ℕ) (c : Char) :
    n ≤ (padStart s n c).length := by
  unfold padStart
  by_cases h : n ≤ s.length
  · rwa [if_pos h]
  · rw [if_neg h]
    show n ≤ (List.replicate (n - s.length) c ++ s.toList).length
    rw [List.length_append, List.length_replicate]
    have hts : s.toList.length = s.length := rfl
    omega

/-- The FIPS stage on a row with truthy FIPS: the alias fill is skipped
and FIPS is overwritten with the padded string rendering. -/
theorem stdRowFips_truthy (fmt : ℚ → String) (row : Rec) (v : Value)
    (hv : jsGet row "FIPS" = some v) (hvt : v.truthy = true) :
    stdRowFips fmt row = aset row "FIPS" (.str (padStart (jsToString fmt v) 5 '0')) := by
  unfold stdRowFips
  have hsv : truthyO (some v) = true := hvt
  simp [hv, hsv, hvt]

/-- The Name stage leaves every other key unchanged. -/
theorem jsGet_stdRowName_ne (r : Rec) (k : String) (hk : k ≠ "Name") :
    jsGet (stdRowName r) k = jsGet r k := by
  unfold stdRowName
  split
  · exact jsGet_aset_ne _ _ _ _ hk
  · rfl

/-- The SA stage leaves every other key unchanged. -/
theorem jsGet_stdRowSA_ne (r : Rec) (k : String) (hk : k ≠ "State Abbreviation") :
    jsGet (stdRowSA r) k = jsGet r k := by
  unfold stdRowSA
  split
  · exact jsGet_aset_ne _ _ _ _ hk
  · rfl

/-- After the Name stage, Name is truthy whenever the source filter's
`Name || County || county` disjunction was truthy on the row. -/
theorem stdRowName_truthy (r : Rec)
    (h : truthyO (jsOr (jsOr (jsGet r "Name") (jsGet r "County")) (jsGet r "county")) = true) :
    ∃ w, jsGet (stdRowName r) "Name" = some w ∧ w.truthy = true := by
  unfold stdRowName
  by_cases hn : truthyO (jsGet r "Name") = true
  · obtain ⟨w, hw, hwt⟩ := truthyO_some _ hn
    rw [if_neg (by simp [hn])]
    exact ⟨w, hw, hwt⟩
  · have hcc : truthyO (jsGet r "County") = true ∨ truthyO (jsGet r "county") = true := by
      rw [truthyO_jsOr, truthyO_jsOr] at h
      simp only [Bool.or_eq_true] at h
      rcases h with (h | h) | h
      · exact absurd h hn
      · exact Or.inl h
      · exact Or.inr h
    have hor3 : truthyO (jsOr (jsOr (jsGet r "County") (jsGet r "county"))
        (jsGet r "NAME")) = true := by
      rw [truthyO_jsOr, truthyO_jsOr]
      rcases hcc with h' | h' <;> simp [h']
    obtain ⟨w, hw, hwt⟩ := truthyO_some _ hor3
    rw [if_pos ⟨by simp [hn], hor3⟩, hw]
    exact ⟨w, jsGet_aset_self _ _ _, hwt⟩

/-- After the SA stage, State Abbreviation is truthy whenever the source
filter's `SA || State || state` disjunction was truthy on the row. -/
theorem stdRowSA_truthy (r : Rec)
    (h : truthyO (jsOr (jsOr (jsGet r "State Abbreviation") (jsGet r "State"))
      (jsGet r "state")) = true) :
    ∃ w, jsGet (stdRowSA r) "State Abbreviation" = some w ∧ w.truthy = true := by
  unfold stdRowSA
  by_cases hn : truthyO (jsGet r "State Abbreviation") = true
  · obtain ⟨w, hw, hwt⟩ := truthyO_some _ hn
    rw [if_neg (by simp [hn])]
    exact ⟨w, hw, hwt⟩
  · have hss : truthyO (jsGet r "State") = true ∨ truthyO (jsGet r "state") = true := by
      rw [truthyO_jsOr, truthyO_jsOr] at h
      simp only [Bool.or_eq_true] at h
      rcases h with (h | h) | h
      · exact absurd h hn
      · exact Or.inl h
      · exact Or.inr h
    have hor : truthyO (jsOr (jsGet r "State") (jsGet r "state")) = true := by
      rw [truthyO_jsOr]
      rcases hss with h' | h' <;> simp [h']
    obtain ⟨w, hw, hwt⟩ := truthyO_some _ hor
    rw [if_pos ⟨by simp [hn], hor⟩, hw]
    exact ⟨w, jsGet_aset_self _ _ _, hwt⟩

/-- Concrete surviving county row with a 6-character FIPS for the C9
counterexample. -/
def c9Row : Rec :=
  [("FIPS", Value.str "123456"), ("Name", Value.str "A"),
   ("State Abbreviation", Value.str "AL")]

/-- C9, counterexample.  The claim says every surviving county-level
record has a FIPS of exactly 5 characters; `padStart(5, "0")` only pads
and never truncates, so a surviving row with the 6-character FIPS
`"123456"` keeps it. -/
theorem C9_counterexample :
    loaderStandardized fmtW AggLevel.county [c9Row] = [c9Row] ∧
    ("123456").length = 6 := by
  constructor
  · rfl
  · rfl

/-- C9, amended.  Every county-level record surviving numeric coercion,
filtering and field standardization has FIPS equal to a non-empty string
of at least 5 characters (zero-padded up to 5; longer raw FIPS strings are
kept unchanged), a truthy Name, and a truthy State Abbreviation. -/
theorem C9_amended (fmt : ℚ → String) (data : List Rec) (row' : Rec)
    (hmem : row' ∈ loaderStandardized fmt AggLevel.county data) :
    (∃ s, jsGet row' "FIPS" = some (Value.str s) ∧ 5 ≤ s.length ∧ s ≠ "") ∧
    (∃ v, jsGet row' "Name" = some v ∧ v.truthy = true) ∧
    (∃ v, jsGet row' "State Abbreviation" = some v ∧ v.truthy = true) := by
  unfold loaderStandardized at hmem
  rcases List.mem_map.mp hmem with ⟨row, hrow, rfl⟩
  have hfil := (List.mem_filter.mp hrow).2
  unfold filterRow at hfil
  rw [Bool.and_eq_true, Bool.and_eq_true] at hfil
  obtain ⟨⟨hF, hN⟩, hS⟩ := hfil
  obtain ⟨v, hv, hvt⟩ := truthyO_some _ hF
  have hfips := stdRowFips_truthy fmt row v hv hvt
  refine ⟨?_, ?_, ?_⟩
  · refine ⟨padStart (jsToString fmt v) 5 '0', ?_, padStart_length _ _ _, ?_⟩
    · show jsGet (stdRow fmt row) "FIPS" = _
      unfold stdRow
      rw [jsGet_stdRowSA_ne _ _ (by decide), jsGet_stdRowName_ne _ _ (by decide), hfips]
      exact jsGet_aset_self _ _ _
    · intro hemp
      have h5 := padStart_length (jsToString fmt v) 5 '0'
      rw [hemp] at h5
      simp at h5
  · show ∃ w, jsGet (stdRow fmt row) "Name" = some w ∧ w.truthy = true
    unfold stdRow
    have hN' : truthyO (jsOr (jsOr (jsGet (stdRowFips fmt row) "Name")
        (jsGet (stdRowFips fmt row) "County")) (jsGet (stdRowFips fmt row) "county")) = true := by
      rw [hfips, jsGet_aset_ne _ _ _ _ (by decide), jsGet_aset_ne _ _ _ _ (by decide),
        jsGet_aset_ne _ _ _ _ (by decide)]
      exact hN
    obtain ⟨w, hw, hwt⟩ := stdRowName_truthy _ hN'
    exact ⟨w, by rw [jsGet_stdRowSA_ne _ _ (by decide)]; exact hw, hwt⟩
  · show ∃ w, jsGet (stdRowSA (stdRowName (stdRowFips fmt row))) "State Abbreviation" =
      some w ∧ w.truthy = true
    have hS' : truthyO (jsOr (jsOr (jsGet (stdRowName (stdRowFips fmt row)) "State Abbreviation")
        (jsGet (stdRowName (stdRowFips fmt row)) "State"))
        (jsGet (stdRowName (stdRowFips fmt row)) "state")) = true := by
      rw [jsGet_stdRowName_ne _ _ (by decide), jsGet_stdRowName_ne _ _ (by decide),
        jsGet_stdRowName_ne _ _ (by decide), hfips,
        jsGet_aset_ne _ _ _ _ (by decide), jsGet_aset_ne _ _ _ _ (by decide),
        jsGet_aset_ne _ _ _ _ (by decide)]
      exact hS
    exact stdRowSA_truthy _ hS'

/-- Concrete surviving county row (4-digit raw FIPS) for the C9
witness. -/
def c9Row2 : Rec :=
  [("FIPS", Value.str "1001"), ("Name", Value.str "B"),
   ("State Abbreviation", Value.str "AL")]

/-- C9, witness: the amended theorem at a surviving concrete row (FIPS
`"1001"` padded to `"01001"`). -/
theorem C9_witness :
    (∃ s, jsGet ((loaderStandardized fmtW AggLevel.county [c9Row2]).headD [])
      "FIPS" = some (Value.str s) ∧ 5 ≤ s.length ∧ s ≠ "") ∧
    (∃ v, jsGet ((loaderStandardized fmtW AggLevel.county [c9Row2]).headD [])
      "Name" = some v ∧ v.truthy = true) := by
  have hmem : (loaderStandardized fmtW AggLevel.county [c9Row2]).headD [] ∈
      loaderStandardized fmtW AggLevel.county [c9Row2] := by decide
  have h := C9_amended fmtW [c9Row2] _ hmem
  exact ⟨h.1, h.2.1⟩

/-! ## K-means lemmas -/

/-- With a single centroid the left-to-right scan always yields index 0. -/
theorem nearestCentroid_single (p c : List ℚ) : nearestCentroid p [c] = 0 := rfl

theorem assignAll_single (points : List (List ℚ)) (c : List ℚ) :
    assignAll points [c] = List.replicate points.length 0 := by
  induction points with
  | nil => rfl
  | cons p t ih =>
      show nearestCentroid p [c] :: assignAll t [c] = _
      rw [nearestCentroid_single, ih]
      rfl

/-- With `k = 1`, initialization consumes one draw and returns that
point as the unique centroid. -/
theorem initCentroids_one (points : List (List ℚ)) (p : ℕ) (rest : List ℕ) :
    initCentroids points 1 (p :: rest) [] [] =
      some [points.getD (p % points.length) []] := by
  unfold initCentroids
  simp
  unfold initCentroids
  simp

/-- C8.  `kMeansClustering` on an empty point list returns empty
assignments and centroids without error; with `k = 1` on a non-empty
point list (and at least one random draw available) it terminates with
every point assigned to cluster `0`. -/
theorem C8_kmeans (points : List (List ℚ)) (k : ℕ) (picks : List ℕ) :
    (points = [] → kMeansClustering points k picks = some ([], [])) ∧
    (k = 1 → points ≠ [] → picks ≠ [] →
      ∃ cs, kMeansClustering points k picks =
        some (List.replicate points.length 0, cs)) := by
  constructor
  · intro h
    subst h
    rfl
  · intro hk hne hp
    subst hk
    rcases picks with _ | ⟨p, rest⟩
    · exact absurd rfl hp
    have hloop : kLoop points 1 100 (List.replicate points.length 0)
        [points.getD (p % points.length) []] =
        (List.replicate points.length 0,
         updateCentroids points (List.replicate points.length 0)
           [points.getD (p % points.length) []] 1) := by
      show kLoop points 1 (99 + 1) _ _ = _
      unfold kLoop
      simp [assignAll_single]
    refine ⟨updateCentroids points (List.replicate points.length 0)
      [points.getD (p % points.length) []] 1, ?_⟩
    unfold kMeansClustering
    rw [if_neg (by simpa [List.length_eq_zero] using hne), initCentroids_one,
      Option.map_some']
    exact congrArg some hloop

unseal Rat.mul Rat.add Rat.inv Rat.sub in
/-- C8, witness: the theorem at the empty input (with `k = 3`) and at the
two points `[0]`, `[1]` with `k = 1`. -/
theorem C8_witness :
    kMeansClustering ([] : List (List ℚ)) 3 [] = some ([], []) ∧
    ∃ cs, kMeansClustering [[0], [1]] 1 [0] = some ([0, 0], cs) := by
  refine ⟨(C8_kmeans [] 3 []).1 rfl, ?_⟩
  obtain ⟨cs, hcs⟩ := (C8_kmeans [[0], [1]] 1 [0]).2 rfl (by decide) (by decide)
  exact ⟨cs, by simpa using hcs⟩

/-- C3, amended.  When the projection or clustering step throws, the
orchestrator recovers locally with the catch-block fallback: the bundle
carries one random projected point and one uniformly drawn cluster label
in `[0, 5)` per processed record — but nothing in the bundle flags the
degraded output (see the counterexample: it can coincide exactly with a
successful run's bundle). -/
theorem C3_amended (fmt : ℚ → String)
    (pcaStep : List Rec → List String → Except Unit (List PCAPoint))
    (clusterStep : List PCAPoint → ℕ → Except Unit (List ℤ))
    (rng : ℕ → ℚ) (data : List Rec) (level : AggLevel)
    (hfeat : featuresOf fmt level data ≠ [])
    (hthrow : pcaStep (processedOf fmt level data) (featuresOf fmt level data) =
        Except.error () ∨
      ∃ pca, pcaStep (processedOf fmt level data) (featuresOf fmt level data) =
          Except.ok pca ∧ pca ≠ [] ∧ clusterStep pca (min 5 pca.length) =
          Except.error ()) :
    (processData fmt pcaStep clusterStep rng data level).pcaResult.length =
      (processedOf fmt level data).length ∧
    (processData fmt pcaStep clusterStep rng data level).clusterAssignments.length =
      (processedOf fmt level data).length ∧
    ((∀ i, 0 ≤ rng i ∧ rng i < 1) →
      ∀ c ∈ (processData fmt pcaStep clusterStep rng data level).clusterAssignments,
        0 ≤ c ∧ c < 5) := by
  have hlen : 0 < (featuresOf fmt level data).length := List.length_pos.mpr hfeat
  have hb : processData fmt pcaStep clusterStep rng data level =
      { rawData := loaderStandardized fmt level data
        processedData := processedOf fmt level data
        metrics := metricsOf fmt level data
        healthBurdenIndex := healthBurdenIndexOf fmt level (processedOf fmt level data)
        pcaResult := (fallback (processedOf fmt level data) rng).1
        clusterAssignments := (fallback (processedOf fmt level data) rng).2 } := by
    simp only [processData]
    rcases hthrow with herr | ⟨pca, hok, hpne, hcerr⟩
    · rw [if_pos hlen]
      simp only [herr]
    · rw [if_pos hlen]
      simp only [hok]
      rw [if_pos (List.length_pos.mpr hpne)]
      simp only [hcerr]
  rw [hb]
  refine ⟨by simp [fallback], by simp [fallback], ?_⟩
  intro hr c hc
  simp only [fallback, List.mem_map, List.mem_range] at hc
  obtain ⟨i, _, rfl⟩ := hc
  constructor
  · exact Int.le_floor.mpr (by
      push_cast
      exact mul_nonneg (hr _).1 (by norm_num))
  · exact Int.floor_lt.mpr (by
      push_cast
      calc rng (2 * (processedOf fmt level data).length + i) * 5
          < 1 * 5 := by
            exact mul_lt_mul_of_pos_right (hr _).2 (by norm_num)
        _ = 5 := by norm_num)

/-- Concrete county input for the C3 counterexample and witness. -/
def dC3 : List Rec :=
  [[("FIPS", Value.str "01001"), ("Name", Value.str "A"),
    ("State Abbreviation", Value.str "AL"),
    ("Adult Obesity raw value", Value.num (3/10))]]

unseal Rat.mul Rat.add Rat.inv Rat.sub in
/-- C3, counterexample to the "clearly flagged" part of the claim: on the
same input, a run whose projection step throws (left side, fallback
output with the random stream at 0) returns a bundle **identical** to the
bundle of a run whose projection and clustering succeed with those very
values (right side) — the caller cannot distinguish degraded from real
output. -/
theorem C3_counterexample :
    processData fmtW (fun _ _ => Except.error ()) (fun _ _ => Except.error ())
      (fun _ => 0) dC3 AggLevel.county =
    processData fmtW (fun _ _ => Except.ok [⟨0, 0, 0⟩]) (fun _ _ => Except.ok [0])
      (fun _ => 0) dC3 AggLevel.county := by
  decide

unseal Rat.mul Rat.add Rat.inv Rat.sub in
/-- C3, witness: the amended theorem at the concrete one-county input with
a throwing projection step. -/
theorem C3_witness :
    (processData fmtW (fun _ _ => Except.error ()) (fun _ _ => Except.error ())
      (fun _ => 0) dC3 AggLevel.county).pcaResult.length = 1 ∧
    (processData fmtW (fun _ _ => Except.error ()) (fun _ _ => Except.error ())
      (fun _ => 0) dC3 AggLevel.county).clusterAssignments.length = 1 ∧
    ∀ c ∈ (processData fmtW (fun _ _ => Except.error ()) (fun _ _ => Except.error ())
      (fun _ => 0) dC3 AggLevel.county).clusterAssignments, 0 ≤ c ∧ c < 5 := by
  have h := C3_amended fmtW (fun _ _ => Except.error ()) (fun _ _ => Except.error ())
    (fun _ => 0) dC3 AggLevel.county (by decide) (Or.inl rfl)
  have hplen : (processedOf fmtW AggLevel.county dC3).length = 1 := by decide
  exact ⟨by rw [h.1, hplen], by rw [h.2.1, hplen],
    h.2.2 (fun i => ⟨le_refl 0, by norm_num⟩)⟩

/-! ## Standardization lemmas -/

theorem list_sum_map_sub_div (l : List α) (f : α → ℝ) (c s : ℝ) :
    (l.map (fun x => (f x - c) / s)).sum = ((l.map f).sum - l.length * c) / s := by
  induction l with
  | nil => simp
  | cons a t ih =>
      simp only [List.map_cons, List.sum_cons, ih, List.length_cons]
      push_cast
      ring

theorem list_sum_map_div_sq (l : List α) (f : α → ℝ) (c s : ℝ) :
    (l.map (fun x => ((f x - c) / s) ^ 2)).sum =
      ((l.map (fun x => (f x - c) ^ 2)).sum) / s ^ 2 := by
  induction l with
  | nil => simp
  | cons a t ih =>
      simp only [List.map_cons, List.sum_cons, ih]
      ring

theorem list_sum_sq_eq_zero (l : List ℝ) (hs : l.sum = 0) (h : ∀ x ∈ l, 0 ≤ x) :
    ∀ x ∈ l, x = 0 := by
  induction l with
  | nil => intro x hx; cases hx
  | cons a t ih =>
      rw [List.sum_cons] at hs
      have ha : 0 ≤ a := h a (List.mem_cons_self _ _)
      have ht : 0 ≤ t.sum := List.sum_nonneg (fun x hx => h x (List.mem_cons_of_mem _ hx))
      obtain ⟨ha0, ht0⟩ := (add_eq_zero_iff_of_nonneg ha ht).mp hs
      intro x hx
      rcases List.mem_cons.mp hx with rfl | hx'
      · exact ha0
      · exact ih ht0 (fun y hy => h y (List.mem_cons_of_mem _ hy)) x hx'

theorem getD_range_map (m j : ℕ) (f : ℕ → ℝ) (h : j < m) :
    ((List.range m).map f).getD j 0 = f j := by
  rw [List.getD_eq_getElem?_getD, List.getElem?_map, List.getElem?_range h]
  rfl

/-- C7.  For a non-empty rectangular matrix, every output column of
`standardizeData` has mean exactly `0`; a column of nonzero population
variance has output standard deviation exactly `1`; and a constant
(zero-variance) column maps to the all-zero column (the zero deviation
having been replaced by `1` before division). -/
theorem C7_standardize (data : List (List ℝ)) (j : ℕ)
    (hne : data ≠ [])
    (hrect : ∀ row ∈ data, row.length = (data.headD []).length)
    (hj : j < (data.headD []).length) :
    colMean (standardizeData data) j = 0 ∧
    (colVar data j ≠ 0 → colStd (standardizeData data) j = 1) ∧
    (colVar data j = 0 →
      (standardizeData data).map (fun r => r.getD j 0) = List.replicate data.length 0) := by
  have hn : (data.length : ℝ) ≠ 0 :=
    Nat.cast_ne_zero.mpr (by simpa [List.length_eq_zero] using hne)
  have hlen : (standardizeData data).length = data.length := by
    simp [standardizeData]
  have hcol : (standardizeData data).map (fun r => r.getD j 0) =
      data.map (fun row => (row.getD j 0 - colMean data j) / stdOf data j) := by
    unfold standardizeData
    rw [List.map_map]
    exact congrArg (fun f => List.map f data)
      (funext fun row => getD_range_map _ _ _ hj)
  have hsum : (data.map (fun row => row.getD j 0)).sum =
      data.length * colMean data j := by
    unfold colMean
    field_simp
  have hmean : colMean (standardizeData data) j = 0 := by
    unfold colMean
    rw [hcol, hlen, list_sum_map_sub_div, hsum, sub_self, zero_div, zero_div]
  have hsq : (data.map (fun row => (row.getD j 0 - colMean data j) ^ 2)).sum =
      data.length * colVar data j := by
    unfold colVar
    field_simp
  have hvnn : 0 ≤ colVar data j := by
    unfold colVar
    apply div_nonneg _ (Nat.cast_nonneg _)
    apply List.sum_nonneg
    intro x hx
    obtain ⟨row, _, rfl⟩ := List.mem_map.mp hx
    exact sq_nonneg _
  have hvar : colVar (standardizeData data) j =
      colVar data j / (stdOf data j) ^ 2 := by
    unfold colVar
    rw [hmean, hlen,
      show (fun (r : List ℝ) => (r.getD j 0 - 0) ^ 2) =
        ((fun x => (x - 0) ^ 2) ∘ (fun (r : List ℝ) => r.getD j 0)) from rfl,
      ← List.map_map, hcol, List.map_map]
    have heq : ((fun x => (x - 0) ^ 2) ∘
        fun (row : List ℝ) => (row.getD j 0 - colMean data j) / stdOf data j) =
        fun (row : List ℝ) => ((row.getD j 0 - colMean data j) / stdOf data j) ^ 2 := by
      funext row
      simp
    rw [heq, list_sum_map_div_sq, hsq]
    field_simp
    rw [mul_comm (stdOf data j ^ 2) (data.length : ℝ), ← div_div,
      mul_div_cancel_left₀ _ hn]
  refine ⟨hmean, ?_, ?_⟩
  · intro hv
    have hvpos : 0 < colVar data j := lt_of_le_of_ne hvnn (Ne.symm hv)
    have hs : stdOf data j = Real.sqrt (colVar data j) := by
      unfold stdOf
      rw [if_neg (by positivity)]
    unfold colStd
    rw [hvar, hs, Real.sq_sqrt hvnn, div_self hv, Real.sqrt_one]
  · intro hv
    have hz : (data.map (fun row => (row.getD j 0 - colMean data j) ^ 2)).sum = 0 := by
      rw [hsq, hv, mul_zero]
    have hall := list_sum_sq_eq_zero _ hz (by
      intro x hx
      obtain ⟨row, _, rfl⟩ := List.mem_map.mp hx
      exact sq_nonneg _)
    rw [hcol]
    rw [show data.length = data.length from rfl]
    calc data.map (fun row => (row.getD j 0 - colMean data j) / stdOf data j)
        = data.map (fun _ => 0) := by
          apply List.map_congr_left
          intro row hrow
          have h0 : (row.getD j 0 - colMean data j) ^ 2 = 0 :=
            hall _ (List.mem_map.mpr ⟨row, hrow, rfl⟩)
          rw [pow_eq_zero_iff (by norm_num)] at h0
          rw [h0, zero_div]
      _ = List.replicate data.length 0 := List.map_const' _ _

/-- C7, witness: the theorem at the single-column matrix `[[0], [2]]`
(mean `1`, variance `1`), whose standardization is `[[-1], [1]]`. -/
theorem C7_witness :
    colMean (standardizeData [[0], [2]]) 0 = 0 ∧
    colStd (standardizeData [[0], [2]]) 0 = 1 := by
  have hvar : colVar [[(0:ℝ)], [2]] 0 = 1 := by
    unfold colVar colMean
    norm_num
  have h := C7_standardize [[0], [2]] 0 (by simp)
    (by
      intro row hrow
      fin_cases hrow <;> rfl)
    (by norm_num)
  exact ⟨h.1, h.2.1 (by rw [hvar]; norm_num)⟩

/-! ## Correlation lemmas -/

theorem list_map_sum_fin (l : List β) (h : β → ℚ) :
    (l.map h).sum = ∑ i : Fin l.length, h (l.get i) := by
  induction l with
  | nil => simp
  | cons a t ih =>
      rw [List.map_cons, List.sum_cons, ih]
      exact (Fin.sum_univ_succ (fun i : Fin (t.length + 1) => h ((a :: t).get i))).symm

/-- Cauchy–Schwarz for list sums, in the `x * x` form the source's loops
accumulate. -/
theorem list_cauchy_schwarz (l : List β) (f g : β → ℚ) :
    ((l.map (fun x => f x * g x)).sum) ^ 2 ≤
      ((l.map (fun x => f x * f x)).sum) * ((l.map (fun x => g x * g x)).sum) := by
  rw [list_map_sum_fin l (fun x => f x * g x), list_map_sum_fin l (fun x => f x * f x),
    list_map_sum_fin l (fun x => g x * g x)]
  have h := Finset.sum_mul_sq_le_sq_mul_sq Finset.univ
    (fun i : Fin l.length => f (l.get i)) (fun i => g (l.get i))
  simpa [pow_two] using h

theorem corr_den_nonneg (pairs : List (ℚ × ℚ)) :
    0 ≤ corrXDen pairs ∧ 0 ≤ corrYDen pairs := by
  constructor <;>
    [unfold corrXDen; unfold corrYDen] <;>
    · apply List.sum_nonneg
      intro v hv
      obtain ⟨p, _, rfl⟩ := List.mem_map.mp hv
      exact mul_self_nonneg _

/-- C6.  `calculateCorrelation` yields `NaN` (modelled `none`) exactly
when there are fewer than two valid pairs or one of the mean-centered
denominator sums is zero (zero variance); any returned value lies in
`[-1, 1]`. -/
theorem C6_correlation (data : List Rec) (x y : String) :
    (calculateCorrelation data x y = none ↔
      ((validPairs data x y).length < 2 ∨ corrXDen (validPairs data x y) = 0 ∨
        corrYDen (validPairs data x y) = 0)) ∧
    (∀ r : ℝ, calculateCorrelation data x y = some r → -1 ≤ r ∧ r ≤ 1) := by
  unfold calculateCorrelation
  by_cases h2 : (validPairs data x y).length < 2
  · rw [if_pos h2]
    exact ⟨⟨fun _ => Or.inl h2, fun _ => rfl⟩, fun r hr => absurd hr (by simp)⟩
  · rw [if_neg h2]
    by_cases hd : corrXDen (validPairs data x y) = 0 ∨ corrYDen (validPairs data x y) = 0
    · rw [if_pos hd]
      exact ⟨⟨fun _ => Or.inr hd, fun _ => rfl⟩, fun r hr => absurd hr (by simp)⟩
    · rw [if_neg hd]
      push_neg at hd
      obtain ⟨hx0, hy0⟩ := hd
      refine ⟨⟨fun hc => absurd hc (by simp), fun hor => ?_⟩, ?_⟩
      · rcases hor with h | h | h
        · exact absurd h h2
        · exact absurd h hx0
        · exact absurd h hy0
      · intro r hr
        have hr' : r = (corrNumerator (validPairs data x y) : ℝ) /
            Real.sqrt ((corrXDen (validPairs data x y) : ℝ) *
              (corrYDen (validPairs data x y) : ℝ)) := (Option.some.inj hr).symm
        have hxnn := (corr_den_nonneg (validPairs data x y)).1
        have hynn := (corr_den_nonneg (validPairs data x y)).2
        have hxpos : (0 : ℚ) < corrXDen (validPairs data x y) :=
          lt_of_le_of_ne hxnn (Ne.symm hx0)
        have hypos : (0 : ℚ) < corrYDen (validPairs data x y) :=
          lt_of_le_of_ne hynn (Ne.symm hy0)
        have hcs : (corrNumerator (validPairs data x y)) ^ 2 ≤
            corrXDen (validPairs data x y) * corrYDen (validPairs data x y) := by
          have h := list_cauchy_schwarz (validPairs data x y)
            (fun p => p.1 - (((validPairs data x y).map Prod.fst).sum /
              (validPairs data x y).length))
            (fun p => p.2 - (((validPairs data x y).map Prod.snd).sum /
              (validPairs data x y).length))
          exact h
        have hcsR : ((corrNumerator (validPairs data x y) : ℝ)) ^ 2 ≤
            (corrXDen (validPairs data x y) : ℝ) * (corrYDen (validPairs data x y) : ℝ) := by
          exact_mod_cast hcs
        have hDpos : (0 : ℝ) < (corrXDen (validPairs data x y) : ℝ) *
            (corrYDen (validPairs data x y) : ℝ) :=
          mul_pos (by exact_mod_cast hxpos) (by exact_mod_cast hypos)
        have hLpos : 0 < Real.sqrt ((corrXDen (validPairs data x y) : ℝ) *
            (corrYDen (validPairs data x y) : ℝ)) := Real.sqrt_pos.mpr hDpos
        have habs : |(corrNumerator (validPairs data x y) : ℝ)| ≤
            Real.sqrt ((corrXDen (validPairs data x y) : ℝ) *
              (corrYDen (validPairs data x y) : ℝ)) := by
          rw [← Real.sqrt_sq_eq_abs]
          exact Real.sqrt_le_sqrt hcsR
        have hrabs : |r| ≤ 1 := by
          rw [hr', abs_div, abs_of_pos hLpos]
          rw [div_le_one hLpos]
          exact habs
        exact abs_le.mp hrabs

/-- Concrete two-record table for the C6 witness (metrics `a`, `b` with
pairs `(0,0)` and `(1,1)`). -/
def dC6 : List Rec :=
  [[("a", Value.num 0), ("b", Value.num 0)],
   [("a", Value.num 1), ("b", Value.num 1)]]

unseal Rat.mul Rat.add Rat.inv Rat.sub in
/-- C6, witness: on perfectly correlated data the function returns `1`,
which the theorem places in `[-1, 1]`. -/
theorem C6_witness :
    calculateCorrelation dC6 "a" "b" = some 1 ∧ (-1 : ℝ) ≤ 1 ∧ (1 : ℝ) ≤ 1 := by
  have hp : validPairs dC6 "a" "b" = [(0, 0), (1, 1)] := by decide
  have hnum : corrNumerator [((0:ℚ), (0:ℚ)), (1, 1)] = 1/2 := by
    unfold corrNumerator
    norm_num
  have hxd : corrXDen [((0:ℚ), (0:ℚ)), (1, 1)] = 1/2 := by
    unfold corrXDen
    norm_num
  have hyd : corrYDen [((0:ℚ), (0:ℚ)), (1, 1)] = 1/2 := by
    unfold corrYDen
    norm_num
  have hc : calculateCorrelation dC6 "a" "b" = some 1 := by
    unfold calculateCorrelation
    simp only [hp, hnum, hxd, hyd]
    rw [if_neg (by norm_num), if_neg (by norm_num)]
    congr 1
    rw [show ((1/2 : ℚ) : ℝ) * ((1/2 : ℚ) : ℝ) = ((1/2 : ℝ)) ^ 2 by push_cast; ring,
      Real.sqrt_sq (by norm_num)]
    push_cast
    norm_num
  have hb := (C6_correlation dC6 "a" "b").2 1 hc
  exact ⟨hc, hb⟩
